import Mathlib

/-!
Verification development for the scan data-model core of `ms_deisotope`
(`ms_deisotope/data_source/scan/base.py`).

The embedding translates the Python source into Lean definitions:

* floating-point numbers are modelled as rationals (`ℚ`), so the numeric
  tolerances (`0.1`, `2e-5`, numpy's `atol = 1e-8` / `rtol = 1e-5`) become
  exact rational constants;
* numpy arrays become `List ℚ`;
* the `while` loop of `RawDataArrays.find_mz` becomes a fuel-indexed
  recursion (the window `hi - lo` strictly shrinks each iteration, so
  `length + 1` units of fuel are provably sufficient);
* fallible operations return `Except Unit _` (an uncaught Python exception
  is `.error ()`);
* external collaborators that the source imports from other packages
  (`neutral_mass` / `mass_charge_ratio` from `ms_deisotope.averagine`,
  `deconvolute_peaks` from `ms_deisotope.deconvolution`, `average_signal`
  from `ms_peak_picker`) are passed in as function parameters, matching the
  spec's treatment of them as pure-function collaborators.
-/

deriving instance DecidableEq for Except

/-- Scalar closeness test with numpy's default tolerances:
`np.isclose(a, b) = |a - b| ≤ atol + rtol * |b|` with `atol = 1e-8`,
`rtol = 1e-5`.  Used by `RawDataArrays.__eq__`, `RawDataArrays.__add__`
and `PrecursorInformation.__eq__`. -/
def isclose (a b : ℚ) : Bool :=
  |a - b| ≤ 1 / 100000000 + (1 / 100000) * |b|

/-- Elementwise `np.allclose` on two arrays already known to have equal
length (no broadcasting involved). -/
def allclose_eqlen (a b : List ℚ) : Bool :=
  (a.zip b).all fun p => isclose p.1 p.2

/-- Full `np.allclose` on 1-d arrays, including numpy's broadcasting rules:
equal lengths compare elementwise, a length-one array broadcasts against the
other, and any other shape mismatch raises `ValueError` (modelled as
`.error ()`). -/
def np_allclose (a b : List ℚ) : Except Unit Bool :=
  if a.length = b.length then .ok (allclose_eqlen a b)
  else if a.length = 1 then .ok (b.all fun y => isclose (a.headD 0) y)
  else if b.length = 1 then .ok (a.all fun x => isclose x (b.headD 0))
  else .error ()

/-- Embedding of `RawDataArrays` (``base.py``): the m/z axis, the intensity
axis, and the open-ended auxiliary channel mapping `data_arrays` populated by
`__new__`. -/
structure RawDataArrays where
  mz : List ℚ
  intensity : List ℚ
  data_arrays : List (String × List ℚ)

/-- Embedding of `RawDataArrays.__new__(cls, mz, intensity, arrays=None)`:
`data_arrays` starts empty and is updated from `arrays` when that argument
is truthy. -/
def RawDataArrays.new (mz intensity : List ℚ)
    (arrays : Option (List (String × List ℚ))) : RawDataArrays :=
  { mz := mz, intensity := intensity, data_arrays := arrays.getD [] }

/-- Embedding of `RawDataArrays.__copy__`: copies both axes and every
auxiliary channel. -/
def RawDataArrays.copy (self : RawDataArrays) : RawDataArrays :=
  { mz := self.mz, intensity := self.intensity, data_arrays := self.data_arrays }

/-- Embedding of `RawDataArrays.__mul__`: scales the intensity axis and
rebuilds through the constructor, so the auxiliary channels are not
propagated. -/
def RawDataArrays.mul (self : RawDataArrays) (i : ℚ) : RawDataArrays :=
  RawDataArrays.new self.mz (self.intensity.map (· * i)) none

/-- Embedding of `RawDataArrays.__add__`.  When the two m/z axes have equal
length and are elementwise close the intensities are summed on the shared
axis; otherwise both arrays are resampled by the external `average_signal`
collaborator (passed as `avg`, returning the resampled `(mz, intensity)`
pair) and the result is doubled via `__mul__`.  Either way the result goes
through the constructor, so `data_arrays` ends up empty. -/
def RawDataArrays.add (avg : RawDataArrays → RawDataArrays → List ℚ × List ℚ)
    (self other : RawDataArrays) : RawDataArrays :=
  if self.mz.length = other.mz.length ∧ allclose_eqlen self.mz other.mz then
    RawDataArrays.new self.mz (self.intensity.zipWith (· + ·) other.intensity) none
  else
    RawDataArrays.mul (RawDataArrays.new (avg self other).1 (avg self other).2 none) 2

/-- Possible right-hand operands of `RawDataArrays.__eq__`: another array, a
`None`, or a plain number. -/
inductive RDAOperand
  | arrays (a : RawDataArrays)
  | pynone
  | number (x : ℚ)

/-- Embedding of `RawDataArrays.__eq__`:
`np.allclose(self[0], other[0]) and np.allclose(self[1], other[1])` with a
`ValueError` handler returning `False`.  Indexing a `None` or a plain number
with `other[0]` raises `TypeError`, which the handler does not catch, so the
exception propagates (`.error ()`). -/
def RawDataArrays.eq (self : RawDataArrays) (other : RDAOperand) : Except Unit Bool :=
  match other with
  | .pynone => .error ()
  | .number _ => .error ()
  | .arrays o =>
    match np_allclose self.mz o.mz with
    | .error _ => .ok false
    | .ok false => .ok false
    | .ok true =>
      match np_allclose self.intensity o.intensity with
      | .error _ => .ok false
      | .ok b => .ok b

/-- Inner descending refinement scan of `RawDataArrays.find_mz`: starting at
the landing index, walk left while the signed error stays above `-0.1`,
tracking the `(best_index, best_err)` pair.  The Python loop runs while
`i >= 0`, so index `0` is processed and then the loop stops. -/
def find_mz_scan_left (l : List ℚ) (q : ℚ) : Nat → Nat × ℚ → Nat × ℚ
  | 0, best =>
    let err := l.getD 0 0 - q
    if err ≤ -(1 / 10) then best
    else if |err| < best.2 then (0, |err|) else best
  | i' + 1, best =>
    let err := l.getD (i' + 1) 0 - q
    if err ≤ -(1 / 10) then best
    else find_mz_scan_left l q i' (if |err| < best.2 then (i' + 1, |err|) else best)

/-- Inner ascending refinement scan of `RawDataArrays.find_mz`: walk right
from the landing index while the signed error stays below `0.1`.  The Python
loop runs while `i < n`; here `fuel` carries exactly `n - i`, so the loop
stops precisely when the end of the array is reached. -/
def find_mz_scan_right (l : List ℚ) (q : ℚ) : Nat → Nat → Nat × ℚ → Nat × ℚ
  | 0, _, best => best
  | fuel + 1, i, best =>
    let err := l.getD i 0 - q
    if 1 / 10 ≤ err then best
    else
      let best' := if |err| < best.2 then (i, |err|) else best
      find_mz_scan_right l q fuel (i + 1) best'

/-- Combined local refinement performed by `find_mz` once the probe lands
inside the `0.1` tolerance at `mid`: seed `(best_index, best_err)` with the
midpoint, run the left scan, continue with the right scan, and return the
best index. -/
def find_mz_refine (l : List ℚ) (q : ℚ) (mid : Nat) : Nat :=
  (find_mz_scan_right l q (l.length - mid) mid
    (find_mz_scan_left l q mid (mid, |l.getD mid 0 - q|))).1

/-- Binary-search loop of `RawDataArrays.find_mz`.  While `hi ≠ lo`, probe
the midpoint; inside the `0.1` tolerance run the two refinement scans and
return the best index; on a collapsed window (`hi - lo = 1`) return the
midpoint; otherwise shrink the window.  Falling out of the loop returns `0`.
`fuel` only bounds the iteration count: the window shrinks strictly each
round, so `length + 1` is always enough. -/
def find_mz_loop (l : List ℚ) (q : ℚ) : Nat → Nat → Nat → Nat
  | 0, _, _ => 0
  | fuel + 1, lo, hi =>
    if hi = lo then 0
    else
      let mid := (hi + lo) / 2
      let err := l.getD mid 0 - q
      if |err| < 1 / 10 then find_mz_refine l q mid
      else if hi - lo = 1 then mid
      else if 0 < err then find_mz_loop l q fuel lo mid
      else find_mz_loop l q fuel mid hi

/-- Embedding of `RawDataArrays.find_mz`: binary search with local
tolerance-window refinement over the (assumed sorted) m/z axis. -/
def RawDataArrays.find_mz (self : RawDataArrays) (mz : ℚ) : Nat :=
  find_mz_loop self.mz mz (self.mz.length + 1) 0 self.mz.length

/-- Embedding of `RawDataArrays.between_mz(low, high)`: two `find_mz` calls
delimit the slice, and the lower index is advanced by one when its m/z falls
outside `[low, high]`.  The Python slice `x[i:j]` is `(x.drop i).take (j - i)`. -/
def RawDataArrays.between_mz (self : RawDataArrays) (low high : ℚ) : RawDataArrays :=
  let i := self.find_mz low
  let j := self.find_mz high + 1
  let i := if ¬(low ≤ self.mz.getD i 0 ∧ self.mz.getD i 0 ≤ high) then i + 1 else i
  RawDataArrays.new ((self.mz.drop i).take (j - i))
    ((self.intensity.drop i).take (j - i)) none

/-- Fitted (centroided) peak, as consumed from the precursor scan's picked
peak set: the source only reads its position and intensity here. -/
structure FittedPeak where
  mz : ℚ
  intensity : ℚ

/-- Deconvoluted peak returned by the deconvolution collaborator: exposes
`neutral_mass`, `charge` and `intensity`. -/
structure DeconvolutedPeak where
  neutral_mass : ℚ
  charge : ℤ
  intensity : ℚ

/-- Picked-peak set interface consumed by `find_monoisotopic_peak` and
`correct_mz`: nearest-peak lookup under a relative tolerance and an
m/z-interval query. -/
structure PeakSet where
  has_peak : ℚ → ℚ → Option FittedPeak
  between : ℚ → ℚ → List FittedPeak

/-- Scan collaborator as consumed by `PrecursorInformation`: the (possibly
absent) picked peak set, the peak set that an on-demand `pick_peaks()` call
would install, and the scan polarity. -/
structure Scan where
  peak_set : Option PeakSet
  picked : PeakSet
  polarity : ℤ

/-- Result of `pick_peaks()`-on-demand: the existing peak set if present,
otherwise the freshly picked one. -/
def Scan.effective_peaks (s : Scan) : PeakSet :=
  s.peak_set.getD s.picked

/-- Embedding of `PrecursorInformation`.  A charge of `none` models the
`ChargeNotProvided` sentinel, `some z` a known integer charge (both for the
vendor-reported `charge` and for `extracted_charge`).  The `source` lookup
capability maps a scan id to a scan, `none` when the link is unbound. -/
structure PrecursorInformation where
  mz : ℚ
  intensity : ℚ
  charge : Option ℤ
  precursor_scan_id : Option String
  source : Option (String → Option Scan)
  extracted_neutral_mass : ℚ
  extracted_charge : Option ℤ
  extracted_intensity : ℚ
  peak : Option FittedPeak
  extracted_peak : Option DeconvolutedPeak
  defaulted : Bool
  orphan : Bool
  product_scan_id : Option String
  annotations : List (String × String)
  coisolation : List ℚ

/-- Embedding of `PrecursorInformation.__init__`.  Python defaults
`extracted_charge = 0`; falsy `annotations` / `coisolation` arguments are
replaced with an empty mapping / empty list. -/
def PrecursorInformation.init (mz intensity : ℚ) (charge : Option ℤ)
    (precursor_scan_id : Option String) (source : Option (String → Option Scan))
    (extracted_neutral_mass : ℚ) (extracted_charge : Option ℤ)
    (extracted_intensity : ℚ) (peak : Option FittedPeak)
    (extracted_peak : Option DeconvolutedPeak) (defaulted orphan : Bool)
    (product_scan_id : Option String)
    (ann : Option (List (String × String))) (coiso : Option (List ℚ)) :
    PrecursorInformation :=
  { mz := mz, intensity := intensity, charge := charge,
    precursor_scan_id := precursor_scan_id, source := source,
    extracted_neutral_mass := extracted_neutral_mass,
    extracted_charge := extracted_charge,
    extracted_intensity := extracted_intensity,
    peak := peak, extracted_peak := extracted_peak,
    defaulted := defaulted, orphan := orphan,
    product_scan_id := product_scan_id,
    annotations := ann.getD [], coisolation := coiso.getD [] }

/-- Embedding of the `PrecursorInformation.neutral_mass` property.  The mass
conversion collaborator `neutral_mass(mz, charge)` from
`ms_deisotope.averagine` is the parameter `nm`; an unknown charge falls back
to the default charge `1` (after a non-fatal warning, not modelled). -/
def PrecursorInformation.neutral_mass_prop (pi : PrecursorInformation)
    (nm : ℚ → ℤ → ℚ) : ℚ :=
  match pi.charge with
  | none => nm pi.mz 1
  | some z => nm pi.mz z

/-- Embedding of the `PrecursorInformation.extracted_mz` property.  The mass
conversion collaborator `mass_charge_ratio(mass, charge)` is the parameter
`mcr`.  When `extracted_charge` is the unknown sentinel, or is `0` while the
vendor charge is unknown, the vendor `mz` with default charge `1` is used
instead of the extracted mass. -/
def PrecursorInformation.extracted_mz (pi : PrecursorInformation)
    (mcr : ℚ → ℤ → ℚ) : ℚ :=
  match pi.extracted_charge with
  | none => mcr pi.mz 1
  | some z =>
    if z = 0 ∧ pi.charge = none then mcr pi.mz 1
    else mcr pi.extracted_neutral_mass z

/-- Embedding of `PrecursorInformation.extract(peak, override_charge=None)`:
populates the extracted attributes from a deconvoluted peak; the charge comes
from `override_charge` when given, else from the peak. -/
def PrecursorInformation.extract (pi : PrecursorInformation)
    (peak : DeconvolutedPeak) (override_charge : Option ℤ) :
    PrecursorInformation :=
  { pi with
    extracted_neutral_mass := peak.neutral_mass,
    extracted_charge := some (override_charge.getD peak.charge),
    extracted_intensity := peak.intensity,
    extracted_peak := some peak }

/-- Embedding of `PrecursorInformation.default(orphan=False)`: copies the
vendor-reported values into the extracted fields (via the default charge `1`
when the vendor charge is unknown), sets `defaulted`, and sets `orphan` only
when asked to (never clears it). -/
def PrecursorInformation.default (pi : PrecursorInformation)
    (nm : ℚ → ℤ → ℚ) (orphan : Bool) : PrecursorInformation :=
  let pi' :=
    match pi.charge with
    | none =>
      { pi with
        extracted_charge := none,
        extracted_neutral_mass := nm pi.mz 1,
        extracted_intensity := pi.intensity,
        defaulted := true }
    | some z =>
      { pi with
        extracted_charge := some z,
        extracted_neutral_mass := pi.neutral_mass_prop nm,
        extracted_intensity := pi.intensity,
        defaulted := true }
  if orphan then { pi' with orphan := true } else pi'

/-- Outcome of `find_monoisotopic_peak`: `attrError` models the uncaught
`AttributeError` raised when the `precursor` property dereferences an unbound
`source`; `failure` models the bare `return False`; `result mz ok` models the
`(extracted_mz, ok)` pair. -/
inductive FMPOutcome
  | attrError
  | failure
  | result (mz : ℚ) (ok : Bool)
deriving DecidableEq

/-- Embedding of the `PrecursorInformation.precursor` property as used by
`find_monoisotopic_peak`: `none` scan id resolves to `None`; with a scan id,
an unbound `source` raises `AttributeError`, otherwise the lookup capability
is consulted (a failed in-memory lookup yielding `None`). -/
def PrecursorInformation.resolve_precursor (pi : PrecursorInformation) :
    Except FMPOutcome Scan :=
  match pi.precursor_scan_id with
  | none => .error .failure
  | some sid =>
    match pi.source with
    | none => .error .attrError
    | some f =>
      match f sid with
      | none => .error .failure
      | some s => .ok s

/-- Embedding of `PrecursorInformation.find_monoisotopic_peak`.  Parameters:
`nm` / `mcr` are the mass-conversion collaborators, `dcv` is the external
deconvolution collaborator reduced to the first (and only) priority result —
it receives the candidate pool `peak_set.between(mz - 3, mz + 6)` (the
source's `clone()` / `reindex()` calls do not change the peak list and are
modelled as the identity), the reference peak and the effective charge
range.  Returns the mutated link and the outcome. -/
def PrecursorInformation.find_monoisotopic_peak
    (pi : PrecursorInformation) (nm mcr : ℚ → ℤ → ℚ)
    (dcv : List FittedPeak → FittedPeak → ℤ × ℤ → Option DeconvolutedPeak)
    (trust_charge_state : Bool) (precursor_scan : Option Scan)
    (charge_range : ℤ × ℤ) : PrecursorInformation × FMPOutcome :=
  let scanE : Except FMPOutcome Scan :=
    match precursor_scan with
    | some s => .ok s
    | none => pi.resolve_precursor
  match scanE with
  | .error o => (pi, o)
  | .ok scan =>
    let peaks := scan.effective_peaks
    let charge_range :=
      if scan.polarity < 0 ∧ 0 < max charge_range.1 charge_range.2 then
        (charge_range.1 * scan.polarity, charge_range.2 * scan.polarity)
      else charge_range
    match peaks.has_peak pi.mz (2 / 100000) with
    | none =>
      let pi' := pi.default nm true
      (pi', .result (pi'.extracted_mz mcr) false)
    | some ref_peak =>
      let pool := peaks.between (pi.mz - 3) (pi.mz + 6)
      match dcv pool ref_peak charge_range with
      | none =>
        let pi' := pi.default nm true
        (pi', .result (pi'.extracted_mz mcr) false)
      | some peak =>
        match pi.charge with
        | none =>
          let pi' := pi.extract peak none
          (pi', .result (pi'.extracted_mz mcr) true)
        | some z =>
          if trust_charge_state ∧ z ≠ peak.charge then
            let pi' := pi.default nm false
            (pi', .result (pi'.extracted_mz mcr) false)
          else
            let pi' := pi.extract peak none
            (pi', .result (pi'.extracted_mz mcr) true)

/-- Embedding of `PrecursorInformation.__eq__` (the Python `other` may be
`None`): compare scan ids, then the per-side effective mass (extracted m/z
when that side's extracted neutral mass is non-zero, else the vendor m/z)
under `np.isclose`, then the per-side effective charge. -/
def PrecursorInformation.pi_eq (mcr : ℚ → ℤ → ℚ)
    (self : PrecursorInformation) (other : Option PrecursorInformation) : Bool :=
  match other with
  | none => false
  | some o =>
    if self.precursor_scan_id = o.precursor_scan_id then
      if self.product_scan_id = o.product_scan_id then
        let self_fit := self.extracted_neutral_mass ≠ 0
        let other_fit := o.extracted_neutral_mass ≠ 0
        let self_mass := if self_fit then self.extracted_mz mcr else self.mz
        let other_mass := if other_fit then o.extracted_mz mcr else o.mz
        if isclose self_mass other_mass then
          let self_charge := if self_fit then self.extracted_charge else self.charge
          let other_charge := if other_fit then o.extracted_charge else o.charge
          decide (self_charge = other_charge)
        else false
      else false
    else false

/-- Effective m/z a `PrecursorInformation` side contributes to `__eq__`,
named after the spec's description: extracted m/z when a fit exists
(non-zero extracted neutral mass), else the vendor m/z. -/
def PrecursorInformation.effective_mz (pi : PrecursorInformation)
    (mcr : ℚ → ℤ → ℚ) : ℚ :=
  if pi.extracted_neutral_mass ≠ 0 then pi.extracted_mz mcr else pi.mz

/-- Effective charge a `PrecursorInformation` side contributes to `__eq__`:
extracted charge when a fit exists, else the vendor charge. -/
def PrecursorInformation.effective_charge (pi : PrecursorInformation) : Option ℤ :=
  if pi.extracted_neutral_mass ≠ 0 then pi.extracted_charge else pi.charge

/-- Tail of a pickled `PrecursorInformation` state tuple: older payloads had
13 entries, later ones added `annotations` (14) and `coisolation` (15). -/
inductive PIStateTail
  | n13
  | n14 (ann : List (String × String))
  | n15 (ann : List (String × String)) (coiso : List ℚ)

/-- Pickled state of a `PrecursorInformation` as produced by `__getstate__`
and consumed by `__setstate__`: the first 13 tuple entries plus the
version-dependent tail. -/
structure PIState where
  mz : ℚ
  intensity : ℚ
  charge : Option ℤ
  precursor_scan_id : Option String
  source : Option (String → Option Scan)
  extracted_neutral_mass : ℚ
  extracted_charge : Option ℤ
  extracted_intensity : ℚ
  peak : Option FittedPeak
  extracted_peak : Option DeconvolutedPeak
  defaulted : Bool
  orphan : Bool
  product_scan_id : Option String
  tail : PIStateTail

/-- Embedding of `PrecursorInformation.__getstate__`: every attribute except
`source`, which is explicitly replaced by `None`; the full 15-entry format. -/
def PrecursorInformation.getstate (pi : PrecursorInformation) : PIState :=
  { mz := pi.mz, intensity := pi.intensity, charge := pi.charge,
    precursor_scan_id := pi.precursor_scan_id, source := none,
    extracted_neutral_mass := pi.extracted_neutral_mass,
    extracted_charge := pi.extracted_charge,
    extracted_intensity := pi.extracted_intensity,
    peak := pi.peak, extracted_peak := pi.extracted_peak,
    defaulted := pi.defaulted, orphan := pi.orphan,
    product_scan_id := pi.product_scan_id,
    tail := .n15 pi.annotations pi.coisolation }

/-- An old-format 13-entry payload carrying the same leading attributes as
`getstate` but lacking the `annotations` and `coisolation` entries. -/
def PrecursorInformation.getstate_legacy (pi : PrecursorInformation) : PIState :=
  { pi.getstate with tail := .n13 }

/-- Embedding of `PrecursorInformation.__setstate__`: the first 13 entries
are always restored; `annotations` is restored only when the payload has more
than 13 entries and `coisolation` only when it has more than 14, the prior
values surviving otherwise. -/
def PrecursorInformation.setstate (pi : PrecursorInformation) (s : PIState) :
    PrecursorInformation :=
  { mz := s.mz, intensity := s.intensity, charge := s.charge,
    precursor_scan_id := s.precursor_scan_id, source := s.source,
    extracted_neutral_mass := s.extracted_neutral_mass,
    extracted_charge := s.extracted_charge,
    extracted_intensity := s.extracted_intensity,
    peak := s.peak, extracted_peak := s.extracted_peak,
    defaulted := s.defaulted, orphan := s.orphan,
    product_scan_id := s.product_scan_id,
    annotations :=
      match s.tail with
      | .n13 => pi.annotations
      | .n14 a => a
      | .n15 a _ => a,
    coisolation :=
      match s.tail with
      | .n13 => pi.coisolation
      | .n14 _ => pi.coisolation
      | .n15 _ c => c }

/-- Fresh object built by `__reduce__`'s constructor call `cls(0, 0, 0)`
before `__setstate__` runs: vendor values zero, everything else the
`__init__` defaults. -/
def PrecursorInformation.reduce_seed : PrecursorInformation :=
  PrecursorInformation.init 0 0 (some 0) none none 0 (some 0) 0 none none
    false false none none none

/-- Deserialization as performed by pickle from `__reduce__`:
`cls(0, 0, 0)` followed by `__setstate__` on the payload. -/
def PrecursorInformation.from_state (s : PIState) : PrecursorInformation :=
  PrecursorInformation.reduce_seed.setstate s

/-- Peak as consumed by the TIC / base-peak facades: only `mz` and
`intensity` are read. -/
structure SimplePeak where
  mz : ℚ
  intensity : ℚ
deriving DecidableEq

/-- Content of `list(self.scan)` when the tiered facades fall back to
treating the scan as a generic sequence: a sequence of peak-like elements, of
plain numbers, or of `count` elements of some other type. -/
inductive ScanSeq
  | peaks (l : List SimplePeak)
  | numbers (l : List ℚ)
  | others (count : Nat)

/-- Scan as probed by the tiered facades.  For the two peak-set attributes
the outer `Option` is attribute presence (`none` raises `AttributeError`,
caught) and the inner `Option` is the attribute's value (`None` raises
`TypeError` on iteration, caught). -/
structure FacadeScan where
  deconvoluted_peak_set : Option (Option (List SimplePeak))
  peak_set : Option (Option (List SimplePeak))
  arrays : Option RawDataArrays
  seq : ScanSeq

/-- Embedding of `TICMethods._peak_set_tic` (and its alias
`_peak_sequence_tic`): running sum of peak intensities starting from 0. -/
def TICMethods.peak_set_tic (peaks : List SimplePeak) : ℚ :=
  peaks.foldl (fun total p => total + p.intensity) 0

/-- Embedding of `TICMethods._simple_tic`: `sum(points)`. -/
def TICMethods.simple_tic (points : List ℚ) : ℚ :=
  points.foldl (· + ·) 0

/-- Embedding of `TICMethods._tic_raw_data_arrays`: `arrays.intensity.sum()`. -/
def TICMethods.tic_raw_data_arrays (a : RawDataArrays) : ℚ :=
  a.intensity.foldl (· + ·) 0

/-- Embedding of `TICMethods._guess` (= calling the `tic` facade): try the
deconvoluted tier, the centroided tier, the raw tier — each silently skipped
when the attribute is missing or its value is `None` — then fall back to the
scan-as-sequence cases; an empty or unrecognizable sequence raises
`TypeError` (`.error ()`). -/
def TICMethods.guess (scan : FacadeScan) : Except Unit ℚ :=
  match scan.deconvoluted_peak_set with
  | some (some peaks) => .ok (TICMethods.peak_set_tic peaks)
  | _ =>
    match scan.peak_set with
    | some (some peaks) => .ok (TICMethods.peak_set_tic peaks)
    | _ =>
      match scan.arrays with
      | some arr => .ok (TICMethods.tic_raw_data_arrays arr)
      | none =>
        match scan.seq with
        | .peaks (p :: rest) => .ok (TICMethods.peak_set_tic (p :: rest))
        | .numbers (x :: rest) => .ok (TICMethods.simple_tic (x :: rest))
        | _ => .error ()

/-- Embedding of `BasePeakMethods._peak_set_bp` (and its alias
`_peak_sequence_bp`): `None` on an empty collection, otherwise
`max(peaks, key=intensity)` — Python's `max` keeps the first of equally
intense peaks, hence the strict comparison. -/
def BasePeakMethods.peak_set_bp (peaks : List SimplePeak) : Option SimplePeak :=
  match peaks with
  | [] => none
  | p :: rest =>
    some (rest.foldl (fun b x => if b.intensity < x.intensity then x else b) p)

/-- First index of the maximum of a list (`np.argmax`). -/
def list_argmax (l : List ℚ) : Nat :=
  (l.foldl
    (fun acc x =>
      if acc.2.2 < x then (acc.1 + 1, acc.1 + 1, x) else (acc.2.1, acc.1 + 1, acc.2.2))
    (0, 0, l.headD 0)).2.1

/-- Embedding of `BasePeakMethods._bp_raw_data_arrays`: the
`(mz, intensity)` pair at the index of maximum intensity. -/
def BasePeakMethods.bp_raw_data_arrays (a : RawDataArrays) : SimplePeak :=
  let i := list_argmax a.intensity
  { mz := a.mz.getD i 0, intensity := a.intensity.getD i 0 }

/-- Embedding of `BasePeakMethods._guess` (= calling the `base_peak`
facade): same tier order as the TIC facade, but the generic-sequence
fallback only handles peak-like elements — a sequence of plain numbers
raises `TypeError`, unlike `TICMethods._guess`. -/
def BasePeakMethods.guess (scan : FacadeScan) : Except Unit (Option SimplePeak) :=
  match scan.deconvoluted_peak_set with
  | some (some peaks) => .ok (BasePeakMethods.peak_set_bp peaks)
  | _ =>
    match scan.peak_set with
    | some (some peaks) => .ok (BasePeakMethods.peak_set_bp peaks)
    | _ =>
      match scan.arrays with
      | some arr => .ok (some (BasePeakMethods.bp_raw_data_arrays arr))
      | none =>
        match scan.seq with
        | .peaks (p :: rest) => .ok (BasePeakMethods.peak_set_bp (p :: rest))
        | _ => .error ()

/-- Modelled from the spec: the proton mass constant used by the mass
conversion collaborator in `ms_deisotope.averagine`, which is outside the
source excerpt (§6 treats `neutralMass` / `mzFromNeutralMass` as external
pure functions). -/
def PROTON : ℚ := 100727646677 / 100000000000

/-- Modelled from the spec: the external pure function
`mzFromNeutralMass(mass, charge)` (`mass_charge_ratio` in
`ms_deisotope.averagine`, outside the source excerpt):
`(mass + z * PROTON) / |z|`. -/
def mz_from_neutral_mass (m : ℚ) (z : ℤ) : ℚ :=
  (m + z * PROTON) / |(z : ℚ)|

/-- Modelled from the spec: the external pure function
`neutralMass(mz, charge)` (`neutral_mass` in `ms_deisotope.averagine`,
outside the source excerpt): `mz * |z| - z * PROTON`. -/
def neutral_mass_fn (mz : ℚ) (z : ℤ) : ℚ :=
  mz * |(z : ℚ)| - z * PROTON

/-- Postcondition established for `find_mz` on a sorted non-empty axis:
the returned index is in bounds, and either it lies inside the `0.1`
tolerance and minimizes the absolute error over every in-tolerance index, or
it is out of tolerance and delimits the collapsed one-element search window
(everything at or below it sits at least `0.1` below the query unless it is
index `0`, everything above it sits at least `0.1` above unless the array
ends). -/
def FindMzPost (l : List ℚ) (q : ℚ) (r : Nat) : Prop :=
  r < l.length ∧
  ((|l.getD r 0 - q| < 1 / 10 ∧
      ∀ j, j < l.length → |l.getD j 0 - q| < 1 / 10 →
        |l.getD r 0 - q| ≤ |l.getD j 0 - q|) ∨
    (1 / 10 ≤ |l.getD r 0 - q| ∧
      (r = 0 ∨ l.getD r 0 ≤ q - 1 / 10) ∧
      (r + 1 = l.length ∨ q + 1 / 10 ≤ l.getD (r + 1) 0)))

/-- Fitted link used to exhibit mixed-fit-status equality in
`PrecursorInformation.__eq__`: non-zero extracted neutral mass `100` at
extracted charge `1`. -/
def pi_fit_example : PrecursorInformation :=
  PrecursorInformation.init 0 0 (some 1) none none 100 (some 1) 0 none none
    false false none none none

/-- Unfitted link whose vendor m/z coincides with the extracted m/z of
`pi_fit_example`: extracted neutral mass `0`, vendor charge `1`. -/
def pi_vendor_example : PrecursorInformation :=
  PrecursorInformation.init (mz_from_neutral_mass 100 1) 0 (some 1) none none
    0 (some 0) 0 none none false false none none none

/-- Unbound link with a `None` precursor scan id, used to exercise the
unresolvable-precursor path of `find_monoisotopic_peak`. -/
def pi_unbound_example : PrecursorInformation :=
  PrecursorInformation.init 500 100 (some 2) none none 0 (some 0) 0 none none
    false false none none none

/-- Peak set whose nearest-peak lookup always finds a reference peak at
m/z 500; used to exercise the untrusted-charge path. -/
def peakset_example : PeakSet :=
  { has_peak := fun _ _ => some { mz := 500, intensity := 10 },
    between := fun _ _ => [{ mz := 500, intensity := 10 }] }

/-- Positive-polarity scan already carrying `peakset_example` as its picked
peak set. -/
def scan_example : Scan :=
  { peak_set := some peakset_example, picked := peakset_example, polarity := 1 }

/-- Bound link with vendor charge 2 aimed at `scan_example`. -/
def pi_charge2_example : PrecursorInformation :=
  PrecursorInformation.init 500 100 (some 2) (some "scan=1") none 0 (some 0) 0
    none none false false (some "scan=2") none none

/-- Deconvolution collaborator stub returning a fit of charge 3 for every
priority target. -/
def dcv_charge3_example :
    List FittedPeak → FittedPeak → ℤ × ℤ → Option DeconvolutedPeak :=
  fun _ _ _ => some { neutral_mass := 998, charge := 3, intensity := 50 }

/-- C9: serializing a `PrecursorInformation` and deserializing through
`__reduce__` (`cls(0, 0, 0)` + `__setstate__`) round-trips every listed
attribute except the `source` lookup capability, which comes back as the
`None` sentinel; an older 13-entry payload leaves `annotations` and
`coisolation` at the freshly initialized empty mapping and empty sequence. -/
theorem precursor_information_state_roundtrip (pi : PrecursorInformation) :
    PrecursorInformation.from_state pi.getstate = { pi with source := none } ∧
    (PrecursorInformation.from_state pi.getstate_legacy).annotations = [] ∧
    (PrecursorInformation.from_state pi.getstate_legacy).coisolation = [] :=
  ⟨rfl, rfl, rfl⟩

/-- C10: for an array carrying at least one auxiliary channel, scaling
(`__mul__`) and combination (`__add__`, both branches) produce arrays with an
empty auxiliary-channel mapping, while `__copy__` alone propagates the
channels. -/
theorem arithmetic_drops_auxiliary_channels
    (avg : RawDataArrays → RawDataArrays → List ℚ × List ℚ)
    (a b : RawDataArrays) (i : ℚ) (h : a.data_arrays ≠ []) :
    (a.mul i).data_arrays = [] ∧
    (RawDataArrays.add avg a b).data_arrays = [] ∧
    (RawDataArrays.add avg b a).data_arrays = [] ∧
    a.copy.data_arrays = a.data_arrays := by
  refine ⟨rfl, ?_, ?_, rfl⟩ <;>
    · unfold RawDataArrays.add
      split <;> rfl

/-- Witness for `arithmetic_drops_auxiliary_channels` at an array holding a
drift-time channel. -/
theorem arithmetic_drops_auxiliary_channels_witness :
    (RawDataArrays.mk [1] [2] [("drift", [3])]).data_arrays ≠ [] ∧
    ((RawDataArrays.mk [1] [2] [("drift", [3])]).mul 2).data_arrays = [] ∧
    (RawDataArrays.add (fun _ _ => ([], []))
      (RawDataArrays.mk [1] [2] [("drift", [3])])
      (RawDataArrays.mk [1] [2] [])).data_arrays = [] ∧
    (RawDataArrays.add (fun _ _ => ([], []))
      (RawDataArrays.mk [1] [2] [])
      (RawDataArrays.mk [1] [2] [("drift", [3])])).data_arrays = [] ∧
    (RawDataArrays.mk [1] [2] [("drift", [3])]).copy.data_arrays =
      (RawDataArrays.mk [1] [2] [("drift", [3])]).data_arrays := by
  have h := arithmetic_drops_auxiliary_channels (fun _ _ => ([], []))
    (RawDataArrays.mk [1] [2] [("drift", [3])]) (RawDataArrays.mk [1] [2] []) 2
    (by simp)
  exact ⟨by simp, h.1, h.2.1, h.2.2.1, h.2.2.2⟩

unseal Rat.add Rat.sub Rat.mul Rat.inv in
/-- C8 (counterexample): comparing a `RawDataArrays` against `None` raises an
uncaught `TypeError` instead of evaluating to false, and two arrays of
different lengths compare equal when one axis has length one (numpy
broadcasting), so neither the "non-array compares false" nor the
"mismatched length compares false" part of the claim holds. -/
theorem rawdataarrays_eq_cex :
    RawDataArrays.eq (RawDataArrays.mk [1, 2, 3] [4, 5, 6] []) .pynone = .error () ∧
    (RawDataArrays.mk [5, 5, 5] [7, 7, 7] []).mz.length ≠
      (RawDataArrays.mk [5] [7] []).mz.length ∧
    RawDataArrays.eq (RawDataArrays.mk [5, 5, 5] [7, 7, 7] [])
      (.arrays (RawDataArrays.mk [5] [7] [])) = .ok true := by
  refine ⟨rfl, by decide, ?_⟩
  decide

/-- C8 (amended): comparing against a non-array (`None` or a number) raises
an uncaught `TypeError`; equal-length arrays are equal exactly when both the
m/z and the intensity sequences are elementwise numerically close; arrays of
different lengths, neither of length one, compare unequal without erroring. -/
theorem rawdataarrays_eq_spec (a b : RawDataArrays) :
    RawDataArrays.eq a .pynone = .error () ∧
    (∀ x : ℚ, RawDataArrays.eq a (.number x) = .error ()) ∧
    (a.mz.length = b.mz.length → a.intensity.length = b.intensity.length →
      RawDataArrays.eq a (.arrays b) =
        .ok (allclose_eqlen a.mz b.mz && allclose_eqlen a.intensity b.intensity)) ∧
    (2 ≤ a.mz.length → 2 ≤ b.mz.length → a.mz.length ≠ b.mz.length →
      RawDataArrays.eq a (.arrays b) = .ok false) := by
  refine ⟨rfl, fun _ => rfl, ?_, ?_⟩
  · intro h1 h2
    cases hmz : allclose_eqlen a.mz b.mz <;>
      cases hint : allclose_eqlen a.intensity b.intensity <;>
        simp [RawDataArrays.eq, np_allclose, h1, h2, hmz, hint]
  · intro h1 h2 h3
    have e1 : ¬a.mz.length = 1 := by omega
    have e2 : ¬b.mz.length = 1 := by omega
    simp [RawDataArrays.eq, np_allclose, h3, e1, e2]

/-- Witness for `rawdataarrays_eq_spec`: the equal-length clause at two
2-point arrays and the mismatched-length clause at a 2-point versus 3-point
pair. -/
theorem rawdataarrays_eq_spec_witness :
    RawDataArrays.eq (RawDataArrays.mk [1, 2] [3, 4] [])
      (.arrays (RawDataArrays.mk [1, 2] [3, 4] [])) =
      .ok (allclose_eqlen [1, 2] [1, 2] && allclose_eqlen [3, 4] [3, 4]) ∧
    RawDataArrays.eq (RawDataArrays.mk [1, 2] [3, 4] [])
      (.arrays (RawDataArrays.mk [1, 2, 3] [3, 4, 5] [])) = .ok false :=
  ⟨(rawdataarrays_eq_spec (RawDataArrays.mk [1, 2] [3, 4] [])
      (RawDataArrays.mk [1, 2] [3, 4] [])).2.2.1 rfl rfl,
   (rawdataarrays_eq_spec (RawDataArrays.mk [1, 2] [3, 4] [])
      (RawDataArrays.mk [1, 2, 3] [3, 4, 5] [])).2.2.2 (by decide) (by decide)
      (by decide)⟩

unseal Rat.add Rat.sub Rat.mul Rat.inv in
/-- C7 (counterexample): on a scan with none of the three tiers whose
elements are the plain numbers `[3, 7, 5]`, the base-peak facade's default
resolution raises a `TypeError` instead of reducing to the maximum, while the
total-current facade does reduce the same scan numerically (to `15`). -/
theorem base_peak_numeric_sequence_cex :
    BasePeakMethods.guess (FacadeScan.mk none none none (.numbers [3, 7, 5])) =
      .error () ∧
    TICMethods.guess (FacadeScan.mk none none none (.numbers [3, 7, 5])) =
      .ok 15 := by
  refine ⟨rfl, ?_⟩
  decide

/-- C7 (amended): on a scan with none of the three tiers and a non-empty
plain-number sequence, the base-peak facade's default resolution fails with a
type error, whereas the total-current facade reduces the sequence numerically
(summing it) — the two facades' generic fallbacks differ. -/
theorem base_peak_numeric_sequence_type_error (scan : FacadeScan) (l : List ℚ)
    (h1 : scan.deconvoluted_peak_set = none) (h2 : scan.peak_set = none)
    (h3 : scan.arrays = none) (h4 : scan.seq = .numbers l) (h5 : l ≠ []) :
    BasePeakMethods.guess scan = .error () ∧
    TICMethods.guess scan = .ok (TICMethods.simple_tic l) := by
  cases l with
  | nil => exact absurd rfl h5
  | cons x rest =>
    unfold BasePeakMethods.guess TICMethods.guess
    rw [h1, h2, h3, h4]
    exact ⟨rfl, rfl⟩

/-- Witness for `base_peak_numeric_sequence_type_error` at the numeric
sequence `[1, 2]`. -/
theorem base_peak_numeric_sequence_type_error_witness :
    BasePeakMethods.guess (FacadeScan.mk none none none (.numbers [1, 2])) =
      .error () ∧
    TICMethods.guess (FacadeScan.mk none none none (.numbers [1, 2])) =
      .ok (TICMethods.simple_tic [1, 2]) :=
  base_peak_numeric_sequence_type_error
    (FacadeScan.mk none none none (.numbers [1, 2])) [1, 2] rfl rfl rfl rfl
    (by simp)

/-- C4: whenever a scan exposes a deconvoluted peak set with intensities
`[10, 5, 2]`, the tier-aware total-current facade resolves to `17` and the
base-peak facade to a peak of intensity `10`, regardless of what the other
tiers hold — the deconvoluted tier is probed first. -/
theorem facade_deconvoluted_tier_priority (scan : FacadeScan)
    (l : List SimplePeak) (hd : scan.deconvoluted_peak_set = some (some l))
    (hi : l.map SimplePeak.intensity = [10, 5, 2]) :
    TICMethods.guess scan = .ok 17 ∧
    ∃ p, BasePeakMethods.guess scan = .ok (some p) ∧ p.intensity = 10 := by
  cases l with
  | nil => simp at hi
  | cons a t =>
  cases t with
  | nil => simp at hi
  | cons b t2 =>
  cases t2 with
  | nil => simp at hi
  | cons c t3 =>
  cases t3 with
  | cons d t4 => simp at hi
  | nil =>
    simp only [List.map_cons, List.map_nil, List.cons.injEq, and_true] at hi
    obtain ⟨ha, hb, hc⟩ := hi
    unfold TICMethods.guess BasePeakMethods.guess
    rw [hd]
    constructor
    · unfold TICMethods.peak_set_tic
      simp only [List.foldl]
      rw [ha, hb, hc]
      norm_num
    · refine ⟨a, ?_, ha⟩
      unfold BasePeakMethods.peak_set_bp
      have h1 : ¬a.intensity < b.intensity := by rw [ha, hb]; norm_num
      have h2 : ¬a.intensity < c.intensity := by rw [ha, hc]; norm_num
      simp only [List.foldl, if_neg h1, if_neg h2]

/-- Witness for `facade_deconvoluted_tier_priority`: a scan that also has a
picked-peak set, a raw array and a numeric sequence, all ignored in favor of
the deconvoluted tier. -/
theorem facade_deconvoluted_tier_priority_witness :
    TICMethods.guess (FacadeScan.mk
      (some (some [SimplePeak.mk 100 10, SimplePeak.mk 150 5, SimplePeak.mk 200 2]))
      (some (some [SimplePeak.mk 1 999]))
      (some (RawDataArrays.mk [1] [888] []))
      (.numbers [7])) = .ok 17 ∧
    ∃ p, BasePeakMethods.guess (FacadeScan.mk
      (some (some [SimplePeak.mk 100 10, SimplePeak.mk 150 5, SimplePeak.mk 200 2]))
      (some (some [SimplePeak.mk 1 999]))
      (some (RawDataArrays.mk [1] [888] []))
      (.numbers [7])) = .ok (some p) ∧ p.intensity = 10 :=
  facade_deconvoluted_tier_priority _ _ rfl (by decide)

/-- C6: calling `find_monoisotopic_peak` with no explicit precursor scan when
no precursor scan is resolvable — the scan id is the `None` sentinel, or the
bound lookup capability yields `None` for it — returns the bare failure value
without raising, leaving every field of the link unchanged. -/
theorem find_monoisotopic_peak_unresolvable
    (nm mcr : ℚ → ℤ → ℚ)
    (dcv : List FittedPeak → FittedPeak → ℤ × ℤ → Option DeconvolutedPeak)
    (pi : PrecursorInformation) (trust : Bool) (cr : ℤ × ℤ)
    (h : pi.precursor_scan_id = none ∨
      ∃ f sid, pi.source = some f ∧ pi.precursor_scan_id = some sid ∧
        f sid = none) :
    pi.find_monoisotopic_peak nm mcr dcv trust none cr = (pi, .failure) := by
  unfold PrecursorInformation.find_monoisotopic_peak
    PrecursorInformation.resolve_precursor
  rcases h with h | ⟨f, sid, hf, hsid, hnone⟩
  · simp only [h]
  · simp only [hsid, hf, hnone]

/-- Witness for `find_monoisotopic_peak_unresolvable` at an unbound link with
a `None` precursor scan id. -/
theorem find_monoisotopic_peak_unresolvable_witness :
    pi_unbound_example.precursor_scan_id = none ∧
    pi_unbound_example.find_monoisotopic_peak neutral_mass_fn
      mz_from_neutral_mass (fun _ _ _ => none) true none (1, 8) =
      (pi_unbound_example, .failure) :=
  ⟨rfl, find_monoisotopic_peak_unresolvable neutral_mass_fn
    mz_from_neutral_mass (fun _ _ _ => none) pi_unbound_example true (1, 8)
    (Or.inl rfl)⟩

/-- C1: with `trust_charge_state = True`, a known vendor charge, an initially
non-orphan link, a resolvable precursor scan in which a reference peak is
found, and a deconvolution collaborator that returns (for the charge range it
is handed) a fit whose charge differs from the vendor charge, the call
rejects the fit: it returns `(extracted_mz, False)`, sets `defaulted`, leaves
`orphan` false, and fills the extracted fields from the vendor-reported
values (mass from vendor m/z and charge, intensity copied, fitted peak left
untouched). -/
theorem find_monoisotopic_peak_untrusted_fit
    (nm mcr : ℚ → ℤ → ℚ)
    (dcv : List FittedPeak → FittedPeak → ℤ × ℤ → Option DeconvolutedPeak)
    (pi : PrecursorInformation) (s : Scan) (z : ℤ) (ref : FittedPeak)
    (dp : DeconvolutedPeak) (hz : pi.charge = some z) (ho : pi.orphan = false)
    (hp : s.effective_peaks.has_peak pi.mz (2 / 100000) = some ref)
    (hd : ∀ cr : ℤ × ℤ,
      dcv (s.effective_peaks.between (pi.mz - 3) (pi.mz + 6)) ref cr = some dp)
    (hne : dp.charge ≠ z) :
    (pi.find_monoisotopic_peak nm mcr dcv true (some s) (1, 8)).1.defaulted = true ∧
    (pi.find_monoisotopic_peak nm mcr dcv true (some s) (1, 8)).1.orphan = false ∧
    (pi.find_monoisotopic_peak nm mcr dcv true (some s) (1, 8)).1.extracted_charge =
      some z ∧
    (pi.find_monoisotopic_peak nm mcr dcv true (some s) (1, 8)).1.extracted_neutral_mass =
      nm pi.mz z ∧
    (pi.find_monoisotopic_peak nm mcr dcv true (some s) (1, 8)).1.extracted_intensity =
      pi.intensity ∧
    (pi.find_monoisotopic_peak nm mcr dcv true (some s) (1, 8)).1.extracted_peak =
      pi.extracted_peak ∧
    (pi.find_monoisotopic_peak nm mcr dcv true (some s) (1, 8)).2 =
      .result ((pi.find_monoisotopic_peak nm mcr dcv true (some s) (1, 8)).1.extracted_mz mcr)
        false := by
  have hdef : pi.default nm false =
      { pi with
        extracted_charge := some z,
        extracted_neutral_mass := nm pi.mz z,
        extracted_intensity := pi.intensity,
        defaulted := true } := by
    unfold PrecursorInformation.default PrecursorInformation.neutral_mass_prop
    rw [hz]
    rfl
  have key : pi.find_monoisotopic_peak nm mcr dcv true (some s) (1, 8) =
      (pi.default nm false, .result ((pi.default nm false).extracted_mz mcr) false) := by
    unfold PrecursorInformation.find_monoisotopic_peak
    simp only [hp, hd, hz]
    rw [if_pos ⟨trivial, Ne.symm hne⟩]
  rw [key, hdef]
  exact ⟨rfl, ho, rfl, rfl, rfl, rfl, rfl⟩

/-- Witness for `find_monoisotopic_peak_untrusted_fit`: vendor charge 2
against a collaborator fit of charge 3 on `scan_example`. -/
theorem find_monoisotopic_peak_untrusted_fit_witness :
    (pi_charge2_example.find_monoisotopic_peak neutral_mass_fn
      mz_from_neutral_mass dcv_charge3_example true (some scan_example)
      (1, 8)).1.defaulted = true ∧
    (pi_charge2_example.find_monoisotopic_peak neutral_mass_fn
      mz_from_neutral_mass dcv_charge3_example true (some scan_example)
      (1, 8)).1.orphan = false ∧
    (pi_charge2_example.find_monoisotopic_peak neutral_mass_fn
      mz_from_neutral_mass dcv_charge3_example true (some scan_example)
      (1, 8)).1.extracted_charge = some 2 ∧
    (pi_charge2_example.find_monoisotopic_peak neutral_mass_fn
      mz_from_neutral_mass dcv_charge3_example true (some scan_example)
      (1, 8)).1.extracted_neutral_mass = neutral_mass_fn 500 2 ∧
    (pi_charge2_example.find_monoisotopic_peak neutral_mass_fn
      mz_from_neutral_mass dcv_charge3_example true (some scan_example)
      (1, 8)).1.extracted_intensity = 100 ∧
    (pi_charge2_example.find_monoisotopic_peak neutral_mass_fn
      mz_from_neutral_mass dcv_charge3_example true (some scan_example)
      (1, 8)).1.extracted_peak = none ∧
    (pi_charge2_example.find_monoisotopic_peak neutral_mass_fn
      mz_from_neutral_mass dcv_charge3_example true (some scan_example)
      (1, 8)).2 =
      .result ((pi_charge2_example.find_monoisotopic_peak neutral_mass_fn
        mz_from_neutral_mass dcv_charge3_example true (some scan_example)
        (1, 8)).1.extracted_mz mz_from_neutral_mass) false :=
  find_monoisotopic_peak_untrusted_fit neutral_mass_fn mz_from_neutral_mass
    dcv_charge3_example pi_charge2_example scan_example 2
    (FittedPeak.mk 500 10) (DeconvolutedPeak.mk 998 3 50) rfl rfl rfl
    (fun _ => rfl) (by decide)

unseal Rat.add Rat.sub Rat.mul Rat.inv in
/-- C5 (counterexample): a link with a non-zero extracted neutral mass can
compare equal to a link without one — `__eq__` selects each side's mass and
charge by that side's own fit status, so a fitted link whose extracted m/z
matches the other's vendor m/z (with matching charges and scan ids) is equal
to it. -/
theorem pi_eq_mixed_fit_cex :
    PrecursorInformation.pi_eq mz_from_neutral_mass pi_fit_example
      (some pi_vendor_example) = true ∧
    pi_fit_example.extracted_neutral_mass ≠ 0 ∧
    pi_vendor_example.extracted_neutral_mass = 0 := by
  refine ⟨by decide, by decide, rfl⟩

/-- C5 (amended): two links are equal exactly when their precursor and
product scan ids match, their effective m/z values are numerically close and
their effective charges are equal — where each link independently contributes
its extracted m/z / extracted charge if its own extracted neutral mass is
non-zero and its vendor m/z / vendor charge otherwise (so mixed-fit pairs can
be equal). -/
theorem pi_eq_iff_effective (mcr : ℚ → ℤ → ℚ) (a o : PrecursorInformation) :
    PrecursorInformation.pi_eq mcr a (some o) = true ↔
      (a.precursor_scan_id = o.precursor_scan_id ∧
       a.product_scan_id = o.product_scan_id ∧
       isclose (a.effective_mz mcr) (o.effective_mz mcr) = true ∧
       a.effective_charge = o.effective_charge) := by
  simp only [PrecursorInformation.pi_eq, PrecursorInformation.effective_mz,
    PrecursorInformation.effective_charge]
  split_ifs with h1 h2 h3 <;> simp_all

/-- Bridge between the default-valued access used by the embedding and the
proof-carrying list access. -/
theorem getD_eq_getElem_of_lt (l : List ℚ) {i : Nat} (h : i < l.length) :
    l.getD i 0 = l[i] := by
  simp [List.getD_eq_getElem?_getD, List.getElem?_eq_getElem h]

/-- Monotone access on a sorted axis: an earlier index never holds a larger
m/z than a later in-bounds index. -/
theorem getD_mono_of_sorted {l : List ℚ} (hs : List.Sorted (· ≤ ·) l)
    {i j : Nat} (hij : i ≤ j) (hj : j < l.length) :
    l.getD i 0 ≤ l.getD j 0 := by
  rcases Nat.lt_or_ge i j with h | h
  · have hi : i < l.length := Nat.lt_trans h hj
    have := List.pairwise_iff_getElem.mp hs i j hi hj h
    rw [getD_eq_getElem_of_lt l hi, getD_eq_getElem_of_lt l hj]
    exact this
  · have heq : i = j := Nat.le_antisymm hij h
    rw [heq]

/-- Decomposition of membership in a Python-style slice `l[s:s+m]`: a member
is the value at some index `k` with `s ≤ k < s + m` inside the list. -/
theorem mem_slice {l : List ℚ} {s m : Nat} {x : ℚ}
    (hx : x ∈ (l.drop s).take m) :
    ∃ k, s ≤ k ∧ k < s + m ∧ k < l.length ∧ l.getD k 0 = x := by
  obtain ⟨n, hn, hval⟩ := List.mem_iff_getElem.mp hx
  have hlen : n < m ∧ n < l.length - s := by
    have := hn
    simp [List.length_take, List.length_drop] at this
    omega
  refine ⟨s + n, Nat.le_add_right _ _, by omega, by omega, ?_⟩
  have h1 : s + n < l.length := by omega
  rw [getD_eq_getElem_of_lt l h1, ← hval]
  simp [List.getElem_take, List.getElem_drop]

/-- Soundness of the descending refinement scan: starting from a valid
`(best_index, best_err)` pair it returns a valid pair whose error does not
increase and which is no worse than any index at or below the start whose
signed error is above the `-0.1` break threshold (on a sorted axis the break
is conclusive). -/
theorem find_mz_scan_left_spec (l : List ℚ) (q : ℚ)
    (hs : List.Sorted (· ≤ ·) l) :
    ∀ (i : Nat) (best : Nat × ℚ), i < l.length → best.1 < l.length →
      best.2 = |l.getD best.1 0 - q| →
      (find_mz_scan_left l q i best).1 < l.length ∧
      (find_mz_scan_left l q i best).2 =
        |l.getD (find_mz_scan_left l q i best).1 0 - q| ∧
      (find_mz_scan_left l q i best).2 ≤ best.2 ∧
      ∀ j : Nat, j ≤ i → -(1 / 10 : ℚ) < l.getD j 0 - q →
        (find_mz_scan_left l q i best).2 ≤ |l.getD j 0 - q| := by
  intro i
  induction i with
  | zero =>
    intro best hi hb1 hb2
    simp only [find_mz_scan_left]
    by_cases hbrk : l.getD 0 0 - q ≤ -(1 / 10)
    · rw [if_pos hbrk]
      refine ⟨hb1, hb2, le_refl _, ?_⟩
      intro j hj hjtol
      have hj0 : j = 0 := Nat.le_zero.mp hj
      rw [hj0] at hjtol
      linarith
    · rw [if_neg hbrk]
      by_cases hupd : |l.getD 0 0 - q| < best.2
      · rw [if_pos hupd]
        refine ⟨hi, rfl, le_of_lt hupd, ?_⟩
        intro j hj _
        have hj0 : j = 0 := Nat.le_zero.mp hj
        rw [hj0]
      · rw [if_neg hupd]
        refine ⟨hb1, hb2, le_refl _, ?_⟩
        intro j hj _
        have hj0 : j = 0 := Nat.le_zero.mp hj
        rw [hj0]
        exact le_of_not_lt hupd
  | succ i' ih =>
    intro best hi hb1 hb2
    simp only [find_mz_scan_left]
    by_cases hbrk : l.getD (i' + 1) 0 - q ≤ -(1 / 10)
    · rw [if_pos hbrk]
      refine ⟨hb1, hb2, le_refl _, ?_⟩
      intro j hj hjtol
      have hmono := getD_mono_of_sorted hs hj hi
      linarith
    · rw [if_neg hbrk]
      by_cases hupd : |l.getD (i' + 1) 0 - q| < best.2
      · rw [if_pos hupd]
        have hrec := ih (i' + 1, |l.getD (i' + 1) 0 - q|)
          (Nat.lt_of_succ_lt hi) hi rfl
        refine ⟨hrec.1, hrec.2.1, le_trans hrec.2.2.1 (le_of_lt hupd), ?_⟩
        intro j hj hjtol
        rcases Nat.lt_or_ge j (i' + 1) with hj' | hj'
        · exact hrec.2.2.2 j (Nat.lt_succ_iff.mp hj') hjtol
        · have hjeq : j = i' + 1 := Nat.le_antisymm hj hj'
          rw [hjeq]
          exact hrec.2.2.1
      · rw [if_neg hupd]
        have hrec := ih best (Nat.lt_of_succ_lt hi) hb1 hb2
        refine ⟨hrec.1, hrec.2.1, hrec.2.2.1, ?_⟩
        intro j hj hjtol
        rcases Nat.lt_or_ge j (i' + 1) with hj' | hj'
        · exact hrec.2.2.2 j (Nat.lt_succ_iff.mp hj') hjtol
        · have hjeq : j = i' + 1 := Nat.le_antisymm hj hj'
          rw [hjeq]
          exact le_trans hrec.2.2.1 (le_of_not_lt hupd)

/-- Soundness of the ascending refinement scan (with its exact fuel
`n - i`): it returns a valid `(best_index, best_err)` pair whose error does
not increase and which is no worse than any in-bounds index at or after the
start whose signed error is below the `0.1` break threshold. -/
theorem find_mz_scan_right_spec (l : List ℚ) (q : ℚ)
    (hs : List.Sorted (· ≤ ·) l) :
    ∀ (fuel i : Nat) (best : Nat × ℚ), i + fuel = l.length →
      best.1 < l.length → best.2 = |l.getD best.1 0 - q| →
      (find_mz_scan_right l q fuel i best).1 < l.length ∧
      (find_mz_scan_right l q fuel i best).2 =
        |l.getD (find_mz_scan_right l q fuel i best).1 0 - q| ∧
      (find_mz_scan_right l q fuel i best).2 ≤ best.2 ∧
      ∀ j : Nat, i ≤ j → j < l.length → l.getD j 0 - q < 1 / 10 →
        (find_mz_scan_right l q fuel i best).2 ≤ |l.getD j 0 - q| := by
  intro fuel
  induction fuel with
  | zero =>
    intro i best hfuel hb1 hb2
    simp only [find_mz_scan_right]
    refine ⟨hb1, hb2, le_refl _, ?_⟩
    intro j hij hj _
    omega
  | succ f ih =>
    intro i best hfuel hb1 hb2
    have hi : i < l.length := by omega
    simp only [find_mz_scan_right]
    by_cases hbrk : (1 / 10 : ℚ) ≤ l.getD i 0 - q
    · rw [if_pos hbrk]
      refine ⟨hb1, hb2, le_refl _, ?_⟩
      intro j hij hj hjtol
      have hmono := getD_mono_of_sorted hs hij hj
      linarith
    · rw [if_neg hbrk]
      by_cases hupd : |l.getD i 0 - q| < best.2
      · rw [if_pos hupd]
        have hrec := ih (i + 1) (i, |l.getD i 0 - q|) (by omega) hi rfl
        refine ⟨hrec.1, hrec.2.1, le_trans hrec.2.2.1 (le_of_lt hupd), ?_⟩
        intro j hij hj hjtol
        rcases Nat.lt_or_ge j (i + 1) with hj' | hj'
        · have hjeq : j = i := by omega
          rw [hjeq]
          exact hrec.2.2.1
        · exact hrec.2.2.2 j hj' hj hjtol
      · rw [if_neg hupd]
        have hrec := ih (i + 1) best (by omega) hb1 hb2
        refine ⟨hrec.1, hrec.2.1, hrec.2.2.1, ?_⟩
        intro j hij hj hjtol
        rcases Nat.lt_or_ge j (i + 1) with hj' | hj'
        · have hjeq : j = i := by omega
          rw [hjeq]
          exact le_trans hrec.2.2.1 (le_of_not_lt hupd)
        · exact hrec.2.2.2 j hj' hj hjtol

/-- Soundness of the full tolerance-window refinement: starting from an
in-tolerance landing index, the refined index is in bounds, in tolerance, and
minimizes the absolute error over every in-tolerance index of the sorted
axis. -/
theorem find_mz_refine_spec (l : List ℚ) (q : ℚ)
    (hs : List.Sorted (· ≤ ·) l) (mid : Nat) (hmid : mid < l.length)
    (htol : |l.getD mid 0 - q| < 1 / 10) :
    find_mz_refine l q mid < l.length ∧
    |l.getD (find_mz_refine l q mid) 0 - q| < 1 / 10 ∧
    ∀ j : Nat, j < l.length → |l.getD j 0 - q| < 1 / 10 →
      |l.getD (find_mz_refine l q mid) 0 - q| ≤ |l.getD j 0 - q| := by
  have hL := find_mz_scan_left_spec l q hs mid (mid, |l.getD mid 0 - q|)
    hmid hmid rfl
  have hR := find_mz_scan_right_spec l q hs (l.length - mid) mid
    (find_mz_scan_left l q mid (mid, |l.getD mid 0 - q|)) (by omega) hL.1 hL.2.1
  unfold find_mz_refine
  have herr : (find_mz_scan_right l q (l.length - mid) mid
      (find_mz_scan_left l q mid (mid, |l.getD mid 0 - q|))).2 =
      |l.getD (find_mz_scan_right l q (l.length - mid) mid
        (find_mz_scan_left l q mid (mid, |l.getD mid 0 - q|))).1 0 - q| := hR.2.1
  refine ⟨hR.1, ?_, ?_⟩
  · rw [← herr]
    calc (find_mz_scan_right l q (l.length - mid) mid
        (find_mz_scan_left l q mid (mid, |l.getD mid 0 - q|))).2 ≤
        (find_mz_scan_left l q mid (mid, |l.getD mid 0 - q|)).2 := hR.2.2.1
      _ ≤ |l.getD mid 0 - q| := hL.2.2.1
      _ < 1 / 10 := htol
  · intro j hj hjtol
    rw [← herr]
    rcases le_total j mid with hjm | hjm
    · have h1 : -(1 / 10 : ℚ) < l.getD j 0 - q := (abs_lt.mp hjtol).1
      calc (find_mz_scan_right l q (l.length - mid) mid
          (find_mz_scan_left l q mid (mid, |l.getD mid 0 - q|))).2 ≤
          (find_mz_scan_left l q mid (mid, |l.getD mid 0 - q|)).2 := hR.2.2.1
        _ ≤ |l.getD j 0 - q| := hL.2.2.2 j hjm h1
    · have h1 : l.getD j 0 - q < 1 / 10 := (abs_lt.mp hjtol).2
      exact hR.2.2.2 j hjm hj h1

/-- Invariant proof for the binary-search loop: on a sorted axis, for any
window `lo < hi ≤ n` with enough fuel whose lower edge is either the array
start or at least `0.1` below the query and whose upper edge is either the
array end or at least `0.1` above it, the loop's result satisfies
`FindMzPost`. -/
theorem find_mz_loop_spec (l : List ℚ) (q : ℚ)
    (hs : List.Sorted (· ≤ ·) l) :
    ∀ (fuel lo hi : Nat), lo < hi → hi ≤ l.length → hi - lo ≤ fuel →
      (lo = 0 ∨ l.getD lo 0 ≤ q - 1 / 10) →
      (hi = l.length ∨ q + 1 / 10 ≤ l.getD hi 0) →
      FindMzPost l q (find_mz_loop l q fuel lo hi) := by
  intro fuel
  induction fuel with
  | zero =>
    intro lo hi hlohi _ hfuel _ _
    omega
  | succ f ih =>
    intro lo hi hlohi hhin hfuel hloinv hhiinv
    have hne : hi ≠ lo := by omega
    have hmlo : lo ≤ (hi + lo) / 2 := by omega
    have hmhi : (hi + lo) / 2 < hi := by omega
    have hmidlen : (hi + lo) / 2 < l.length := by omega
    simp only [find_mz_loop]
    rw [if_neg hne]
    by_cases htol : |l.getD ((hi + lo) / 2) 0 - q| < 1 / 10
    · rw [if_pos htol]
      have h := find_mz_refine_spec l q hs ((hi + lo) / 2) hmidlen htol
      exact ⟨h.1, Or.inl ⟨h.2.1, h.2.2⟩⟩
    · rw [if_neg htol]
      by_cases hcol : hi - lo = 1
      · rw [if_pos hcol]
        have hmideq : (hi + lo) / 2 = lo := by omega
        refine ⟨hmidlen, Or.inr ⟨le_of_not_lt htol, ?_, ?_⟩⟩
        · rw [hmideq]
          exact hloinv
        · have hsucc : (hi + lo) / 2 + 1 = hi := by omega
          rw [hsucc]
          exact hhiinv
      · rw [if_neg hcol]
        by_cases hsign : 0 < l.getD ((hi + lo) / 2) 0 - q
        · rw [if_pos hsign]
          have herr : q + 1 / 10 ≤ l.getD ((hi + lo) / 2) 0 := by
            have h110 := le_of_not_lt htol
            rw [abs_of_pos hsign] at h110
            linarith
          exact ih lo ((hi + lo) / 2) (by omega) (by omega) (by omega) hloinv
            (Or.inr herr)
        · rw [if_neg hsign]
          have herr : l.getD ((hi + lo) / 2) 0 ≤ q - 1 / 10 := by
            have h110 := le_of_not_lt htol
            have hnp : l.getD ((hi + lo) / 2) 0 - q ≤ 0 := le_of_not_lt hsign
            rw [abs_of_nonpos hnp] at h110
            linarith
          exact ih ((hi + lo) / 2) hi hmhi hhin (by omega) (Or.inr herr) hhiinv

/-- Postcondition of `RawDataArrays.find_mz` on a sorted non-empty axis. -/
theorem find_mz_post (a : RawDataArrays) (q : ℚ)
    (hs : List.Sorted (· ≤ ·) a.mz) (hn : 0 < a.mz.length) :
    FindMzPost a.mz q (a.find_mz q) := by
  unfold RawDataArrays.find_mz
  exact find_mz_loop_spec a.mz q hs (a.mz.length + 1) 0 a.mz.length hn
    (le_refl _) (by omega) (Or.inl rfl) (Or.inl rfl)

/-- On a sorted axis, the collapsed-window outcome of `FindMzPost` implies no
index at all lies within the `0.1` tolerance of the query. -/
theorem find_mz_post_no_tolerance {l : List ℚ} {q : ℚ} {r : Nat}
    (hs : List.Sorted (· ≤ ·) l) (hr : r < l.length)
    (hge : 1 / 10 ≤ |l.getD r 0 - q|)
    (hlo : r = 0 ∨ l.getD r 0 ≤ q - 1 / 10)
    (hhi : r + 1 = l.length ∨ q + 1 / 10 ≤ l.getD (r + 1) 0) :
    ∀ j : Nat, j < l.length → 1 / 10 ≤ |l.getD j 0 - q| := by
  intro j hj
  rcases Nat.lt_or_ge j (r + 1) with hj' | hj'
  · rcases hlo with h0 | hle
    · have hjeq : j = r := by omega
      rw [hjeq]
      exact hge
    · have hmono : l.getD j 0 ≤ l.getD r 0 := getD_mono_of_sorted hs (by omega) hr
      have h1 : 1 / 10 ≤ q - l.getD j 0 := by linarith
      calc (1 / 10 : ℚ) ≤ q - l.getD j 0 := h1
        _ = -(l.getD j 0 - q) := by ring
        _ ≤ |l.getD j 0 - q| := neg_le_abs _
  · rcases hhi with hn' | hge'
    · omega
    · have hmono : l.getD (r + 1) 0 ≤ l.getD j 0 := getD_mono_of_sorted hs hj' hj
      have h1 : 1 / 10 ≤ l.getD j 0 - q := by linarith
      exact le_trans h1 (le_abs_self _)

/-- C2: on a sorted m/z axis with the query inside the array's range,
`find_mz` returns an in-bounds index whose absolute error is minimal among
all indices lying within `0.1` mass units of the query; when no index lies
within `0.1`, the returned index delimits the collapsed one-element search
window (every index at or below it sits at least `0.1` below the query unless
it is index `0`, every later index at least `0.1` above unless the array
ends). -/
theorem find_mz_nearest (a : RawDataArrays) (q : ℚ)
    (hs : List.Sorted (· ≤ ·) a.mz) (hn : 0 < a.mz.length)
    (hlow : a.mz.getD 0 0 ≤ q) (hhigh : q ≤ a.mz.getD (a.mz.length - 1) 0) :
    a.find_mz q < a.mz.length ∧
    (∀ j : Nat, j < a.mz.length → |a.mz.getD j 0 - q| < 1 / 10 →
      |a.mz.getD (a.find_mz q) 0 - q| ≤ |a.mz.getD j 0 - q|) ∧
    (|a.mz.getD (a.find_mz q) 0 - q| < 1 / 10 ∨
      ((∀ j : Nat, j < a.mz.length → 1 / 10 ≤ |a.mz.getD j 0 - q|) ∧
       (a.find_mz q = 0 ∨ a.mz.getD (a.find_mz q) 0 ≤ q - 1 / 10) ∧
       (a.find_mz q + 1 = a.mz.length ∨
         q + 1 / 10 ≤ a.mz.getD (a.find_mz q + 1) 0))) := by
  have h := find_mz_post a q hs hn
  unfold FindMzPost at h
  obtain ⟨h1, h2⟩ := h
  rcases h2 with ⟨htol, hmin⟩ | ⟨hge, hlo', hhi'⟩
  · exact ⟨h1, hmin, Or.inl htol⟩
  · have hnone := find_mz_post_no_tolerance hs h1 hge hlo' hhi'
    refine ⟨h1, ?_, Or.inr ⟨hnone, hlo', hhi'⟩⟩
    intro j hj hjtol
    exact absurd hjtol (not_lt.mpr (hnone j hj))

unseal Rat.add Rat.sub Rat.mul Rat.inv in
/-- Witness for `find_mz_nearest` on the axis `[1, 2, 2.05, 3]` with query
`2.01`. -/
theorem find_mz_nearest_witness :
    List.Sorted (· ≤ ·) (RawDataArrays.mk [1, 2, 41 / 20, 3] [0, 0, 0, 0] []).mz ∧
    (RawDataArrays.mk [1, 2, 41 / 20, 3] [0, 0, 0, 0] []).find_mz (201 / 100) <
      (RawDataArrays.mk [1, 2, 41 / 20, 3] [0, 0, 0, 0] []).mz.length :=
  ⟨by decide,
   (find_mz_nearest (RawDataArrays.mk [1, 2, 41 / 20, 3] [0, 0, 0, 0] [])
     (201 / 100) (by decide) (by decide) (by decide) (by decide)).1⟩

unseal Rat.add Rat.sub Rat.mul Rat.inv in
/-- C3 (counterexample): `between_mz` can include a point with m/z strictly
greater than `high` — on the axis `[0, 10.05]` with bounds `[0, 10]` the
nearest-index search resolves the upper index to the point at `10.05`, which
ends up inside the slice. -/
theorem between_mz_includes_point_above_high :
    (201 / 20 : ℚ) ∈
      ((RawDataArrays.mk [0, 201 / 20] [1, 1] []).between_mz 0 10).mz ∧
    ¬((201 / 20 : ℚ) ≤ 10) := by
  refine ⟨?_, by decide⟩
  decide

/-- C3 (amended): on a sorted non-empty axis with `low ≤ high`, every point
of `between_mz(low, high)` has its m/z strictly inside the widened interval
`(low - 0.1, high + 0.1)` — the `0.1` slack is the `find_mz` refinement
tolerance, and points up to that far outside the requested closed interval
can be included (only the lower edge is corrected, and only by one index). -/
theorem between_mz_within_widened_bounds (a : RawDataArrays) (low high : ℚ)
    (hs : List.Sorted (· ≤ ·) a.mz) (hn : 0 < a.mz.length) (hlh : low ≤ high) :
    ∀ x ∈ (a.between_mz low high).mz, low - 1 / 10 < x ∧ x < high + 1 / 10 := by
  intro x hx
  have hpl := find_mz_post a low hs hn
  have hph := find_mz_post a high hs hn
  unfold FindMzPost at hpl hph
  simp only [RawDataArrays.between_mz, RawDataArrays.new] at hx
  set r1 := a.find_mz low with hr1
  set r2 := a.find_mz high with hr2
  set s := if ¬(low ≤ a.mz.getD r1 0 ∧ a.mz.getD r1 0 ≤ high) then r1 + 1 else r1
    with hsdef
  obtain ⟨k, hks, hkj, hklen, hkval⟩ := mem_slice hx
  obtain ⟨hr1len, hpl2⟩ := hpl
  obtain ⟨hr2len, hph2⟩ := hph
  have hkr2 : k ≤ r2 := by omega
  have hxle : a.mz.getD k 0 ≤ a.mz.getD r2 0 := getD_mono_of_sorted hs hkr2 hr2len
  constructor
  · by_cases hcond : ¬(low ≤ a.mz.getD r1 0 ∧ a.mz.getD r1 0 ≤ high)
    · have hsv : s = r1 + 1 := by rw [hsdef, if_pos hcond]
      have hr1k : r1 + 1 ≤ k := by omega
      have hr1klen : r1 + 1 < a.mz.length := by omega
      have hgk : a.mz.getD (r1 + 1) 0 ≤ a.mz.getD k 0 :=
        getD_mono_of_sorted hs hr1k hklen
      rcases hpl2 with ⟨htol, _⟩ | ⟨_, _, hhi2⟩
      · have h1 : -(1 / 10 : ℚ) < a.mz.getD r1 0 - low := (abs_lt.mp htol).1
        have h2 : a.mz.getD r1 0 ≤ a.mz.getD (r1 + 1) 0 :=
          getD_mono_of_sorted hs (Nat.le_succ r1) hr1klen
        rw [← hkval]
        linarith
      · rcases hhi2 with hn2 | hge2
        · omega
        · rw [← hkval]
          linarith
    · have hcond' := not_not.mp hcond
      have hsv : s = r1 := by rw [hsdef, if_neg hcond]
      have hgk : a.mz.getD r1 0 ≤ a.mz.getD k 0 :=
        getD_mono_of_sorted hs (by omega) hklen
      rw [← hkval]
      linarith [hcond'.1]
  · rcases hph2 with ⟨htol, _⟩ | ⟨hge, hlo2, _⟩
    · have h1 : a.mz.getD r2 0 - high < 1 / 10 := (abs_lt.mp htol).2
      rw [← hkval]
      linarith
    · rcases hlo2 with h0 | hle
      · have hk0 : k = 0 := by omega
        by_cases hcond : ¬(low ≤ a.mz.getD r1 0 ∧ a.mz.getD r1 0 ≤ high)
        · have hsv : s = r1 + 1 := by rw [hsdef, if_pos hcond]
          omega
        · have hcond' := not_not.mp hcond
          have hsv : s = r1 := by rw [hsdef, if_neg hcond]
          have hr10 : r1 = 0 := by omega
          have hg0 : a.mz.getD 0 0 ≤ high := by
            rw [← hr10]
            exact hcond'.2
          rw [← hkval, hk0]
          linarith
      · rw [← hkval]
        linarith

unseal Rat.add Rat.sub Rat.mul Rat.inv in
/-- Witness for `between_mz_within_widened_bounds` on the axis `[1, 2, 3]`
with bounds `[1.5, 2.5]`. -/
theorem between_mz_within_widened_bounds_witness :
    List.Sorted (· ≤ ·) (RawDataArrays.mk [1, 2, 3] [5, 5, 5] []).mz ∧
    ∀ x ∈ ((RawDataArrays.mk [1, 2, 3] [5, 5, 5] []).between_mz (3 / 2)
      (5 / 2)).mz, 3 / 2 - 1 / 10 < x ∧ x < 5 / 2 + 1 / 10 :=
  ⟨by decide,
   between_mz_within_widened_bounds (RawDataArrays.mk [1, 2, 3] [5, 5, 5] [])
     (3 / 2) (5 / 2) (by decide) (by decide) (by decide)⟩
